import Mathlib

/-!
Verification of the orchestration logic of `spotify_playlist_downloader.py`.

The Python source is shallowly embedded below.  Pure string manipulation is
translated to `String`/`List Char` functions; JSON-shaped Python values
(`dict` / `list` / `str` / `None`) are modelled by the inductive `PyVal`;
external effects (the two external command-line tools, the filesystem listing
of the destination folder, the temp metadata file) are modelled by oracle
fields of a `World` record, with `Except` results standing for raising
subprocess calls.  Python `\w` (`re` word characters) and `str.lower` are
modelled over ASCII, which is faithful for every input that appears in the
statements below.
-/

set_option maxHeartbeats 1000000
set_option maxRecDepth 8000

namespace SpotifyDL

/-- Python ASCII whitespace: the characters matched by `\s` and stripped by
`str.strip` (line 82 of the source). -/
def isSpaceChar (c : Char) : Bool :=
  c == ' ' || c == '\t' || c == '\n' || c == '\r' || c == '\x0b' || c == '\x0c'

/-- Python `\w` word characters, modelled over ASCII: alphanumerics and
underscore. -/
def isWordChar (c : Char) : Bool :=
  c.isAlphanum || c == '_'

/-- The filesystem-reserved characters replaced by the first substitution of
`clean_filename` (line 80): `[<>:"/\\|?*]`. -/
def badChars : List Char := ['<', '>', ':', '"', '/', '\\', '|', '?', '*']

/-- First substitution of `clean_filename` (line 80), per character. -/
def mapChar1 (c : Char) : Char := if c ∈ badChars then '_' else c

/-- The character class `[\w\s\-_\.]` kept by the second substitution of
`clean_filename` (line 81). -/
def safeChar (c : Char) : Bool :=
  isWordChar c || isSpaceChar c || c == '-' || c == '_' || c == '.'

/-- Second substitution of `clean_filename` (line 81), per character. -/
def mapChar2 (c : Char) : Char := if safeChar c then c else '_'

/-- Python `str.strip()`: drop leading and trailing whitespace. -/
def stripList (l : List Char) : List Char :=
  ((l.dropWhile isSpaceChar).reverse.dropWhile isSpaceChar).reverse

/-- `SpotifyPlaylistDownloader.clean_filename` (lines 77-84): two character
substitutions, then `strip()`, then truncation to 200 characters.  The
`except` arm (line 83-84, returning `"unknown_file"`) is unreachable here
because every operation in the body is total. -/
def clean_filename (filename : String) : String :=
  String.mk ((stripList ((filename.data.map mapChar1).map mapChar2)).take 200)

/-- Python substring test `sep in l` (non-overlapping scan). -/
def containsSub (sep : List Char) : List Char → Bool
  | [] => sep.isPrefixOf []
  | c :: cs => sep.isPrefixOf (c :: cs) || containsSub sep cs

/-- Fuelled worker for Python `str.split(sep)`: scans left to right, cutting
at each non-overlapping occurrence of `sep`.  The fuel is an upper bound on
the length of the remaining input; `splitSub` supplies `l.length`. -/
def splitSubGo (sep : List Char) : Nat → List Char → List (List Char)
  | _, [] => [[]]
  | 0, l => [l]
  | fuel + 1, c :: cs =>
    if sep ≠ [] ∧ sep.isPrefixOf (c :: cs) = true then
      [] :: splitSubGo sep fuel ((c :: cs).drop sep.length)
    else
      match splitSubGo sep fuel cs with
      | [] => [[c]]
      | p :: ps => (c :: p) :: ps

/-- Python `str.split(sep)` for a non-empty separator. -/
def splitSub (sep l : List Char) : List (List Char) := splitSubGo sep l.length l

/-- A separator that cannot overlap itself: no non-trivial shift of `sep`
matches a prefix of `sep`.  Holds for `"playlist/"`, `"album/"` and `"?"`. -/
def OverlapFree (sep : List Char) : Prop :=
  ∀ k ∈ List.range sep.length, 0 < k → sep.drop k ≠ sep.take (sep.length - k)

instance (sep : List Char) : Decidable (OverlapFree sep) :=
  inferInstanceAs (Decidable (∀ k ∈ List.range sep.length,
    0 < k → sep.drop k ≠ sep.take (sep.length - k)))

/-- Worker for Python `str.title()` over ASCII: uppercase a letter after a
non-letter, lowercase a letter after a letter. -/
def pyTitleGo : Bool → List Char → List Char
  | _, [] => []
  | prevAlpha, c :: cs =>
    (if c.isAlpha then (if prevAlpha then c.toLower else c.toUpper) else c)
      :: pyTitleGo c.isAlpha cs

/-- Python `str.title()` over ASCII. -/
def pyTitle (s : String) : String := String.mk (pyTitleGo false s.data)

/-- Python `str.lower()` over ASCII. -/
def pyLower (s : String) : String := String.mk (s.data.map Char.toLower)

/-- JSON-shaped Python values as produced by `json.load` on the metadata
tool's save file: strings, `None`, lists and (string-keyed) dicts. -/
inductive PyVal where
  | str (s : String)
  | none
  | list (xs : List PyVal)
  | dict (kvs : List (String × PyVal))

/-- Python truthiness of a `PyVal`: empty string/list/dict and `None` are
falsy. -/
def pyTruthy : PyVal → Bool
  | .str s => !(s == "")
  | .none => false
  | .list xs => !xs.isEmpty
  | .dict kvs => !kvs.isEmpty

/-- Key lookup in a dict, first binding wins (Python dict keys are unique). -/
def lookupKV : List (String × PyVal) → String → Option PyVal
  | [], _ => Option.none
  | (k, v) :: rest, key => if k == key then Option.some v else lookupKV rest key

/-- `get_value` (lines 29-39): `dict.get(key, default)` on dicts, otherwise
the default.  (The `hasattr` arm of the source never fires on JSON-shaped
values for the keys this program uses, so non-dicts degrade to `default`.) -/
def get_value (obj : PyVal) (key : String) (default : PyVal) : PyVal :=
  match obj with
  | .dict kvs => (lookupKV kvs key).getD default
  | _ => default

/-- Python `sep.join` of a list of strings. -/
def sepJoin (sep : String) : List String → String
  | [] => ""
  | [x] => x
  | x :: xs => x ++ sep ++ sepJoin sep xs

/-- Python `repr` of a `PyVal`, used by `str` on lists and dicts. -/
def pyRepr : PyVal → String
  | .str s => "'" ++ s ++ "'"
  | .none => "None"
  | .list xs =>
    "[" ++ sepJoin ", " (xs.attach.map (fun x => pyRepr x.1)) ++ "]"
  | .dict kvs =>
    "\x7b" ++
      sepJoin ", " (kvs.attach.map (fun kv => "'" ++ kv.1.1 ++ "': " ++ pyRepr kv.1.2)) ++
      "\x7d"
termination_by v => sizeOf v
decreasing_by
  · have h := List.sizeOf_lt_of_mem x.2
    simp only [PyVal.list.sizeOf_spec]
    omega
  · have h := List.sizeOf_lt_of_mem kv.2
    have h2 : sizeOf kv.1.2 < sizeOf kv.1 := by
      obtain ⟨a, b⟩ := kv.1
      simp only [Prod.mk.sizeOf_spec]
      omega
    simp only [PyVal.dict.sizeOf_spec]
    omega

/-- Python `str()` of a `PyVal`. -/
def pyStr : PyVal → String
  | .str s => s
  | .none => "None"
  | .list xs => pyRepr (.list xs)
  | .dict kvs => pyRepr (.dict kvs)

/-- `format_list_as_string` (lines 58-68): join the stringification of the
truthy items of a list, return a string unchanged, stringify any other
truthy value, and fall back to `"Unknown"` for falsy non-strings. -/
def format_list_as_string (obj : PyVal) (sep : String) : String :=
  match obj with
  | .list xs => sepJoin sep ((xs.filter pyTruthy).map pyStr)
  | .str s => s
  | other => if pyTruthy other then pyStr other else "Unknown"

/-- `SpotifyPlaylistDownloader.get_url_type` (lines 95-106). -/
def get_url_type (url : String) : String :=
  if containsSub "spotify.com/playlist/".data (pyLower url).data then "playlist"
  else if containsSub "spotify.com/album/".data (pyLower url).data then "album"
  else "unknown"

/-- `SpotifyPlaylistDownloader.is_valid_spotify_url` (lines 86-93). -/
def is_valid_spotify_url (url : String) : Bool :=
  containsSub "spotify.com/playlist/".data (pyLower url).data ||
    containsSub "spotify.com/album/".data (pyLower url).data

/-- Python `url.split(sep)[-1]`. -/
def segAfterLast (sep l : List Char) : List Char := (splitSub sep l).getLastD []

/-- Python `url.split(sep)[0]`. -/
def segBeforeFirst (sep l : List Char) : List Char := (splitSub sep l).headD []

/-- `SpotifyPlaylistDownloader.extract_collection_name` (lines 148-161).
The `except` arm (line 160-161, `"Downloaded_Collection"`) is unreachable
here because every string operation in the body is total. -/
def extract_collection_name (url : String) : String :=
  let url_type := get_url_type url
  if containsSub "playlist/".data url.data then
    "Spotify_Playlist_" ++
      String.mk ((segBeforeFirst "?".data (segAfterLast "playlist/".data url.data)).take 8)
  else if containsSub "album/".data url.data then
    "Spotify_Album_" ++
      String.mk ((segBeforeFirst "?".data (segAfterLast "album/".data url.data)).take 8)
  else
    "Spotify_" ++ pyTitle url_type

/-- Python `title == "Unknown"` where `title` may be any value: only the
string `"Unknown"` compares equal. -/
def isUnknownStr : PyVal → Bool
  | .str s => s == "Unknown"
  | _ => false

/-- `SpotifyPlaylistDownloader.extract_track_details` (lines 163-194).
`tid` stands for Python's `str(id(track))`, used only to synthesize the
placeholder title `f"Track_{id(track)}"` (line 187).  The `except` arm
(lines 192-194) is unreachable here because the body is total.  The title
and url components are returned as raw `PyVal`s exactly as in the source,
where non-string field values flow through unchanged. -/
def extract_track_details (tid : String) (track : PyVal) : PyVal × String × PyVal :=
  let base : PyVal × PyVal × PyVal :=
    match track with
    | .dict _ =>
      (get_value track "name" (.str "Unknown"),
       get_value track "artists" (.list []),
       get_value track "url" (.str ""))
    | .list (first :: _) =>
      match first with
      | .dict _ =>
        (get_value first "name" (.str "Unknown"),
         get_value first "artists" (.list []),
         get_value first "url" (.str ""))
      | _ => (.str (format_list_as_string track ", "), .list [], .str "")
    | _ => (.str "Unknown", .list [], .str "")
  let title :=
    if !pyTruthy base.1 || isUnknownStr base.1 then PyVal.str ("Track_" ++ tid) else base.1
  (title, format_list_as_string base.2.1 ", ", base.2.2)

/-- The external world of one `download_collection` run: the outcome of the
metadata tool invocation (`spotdl save`, line 118), the parsed content of the
temp save file (`json.load`, line 121, `.error` = the parse raised), the file
names present in the destination folder, the outcomes of the primary download
tool with full and with reduced flags (lines 227-238 and 244-250), the result
of the video-platform search (lines 255-271, which never raises), the outcome
of the secondary download tool keyed by video url and output template (lines
201-216), and Python's `str(id(·))` used for placeholder titles. -/
structure World where
  saveOk : Except String Unit
  raw : Except String PyVal
  files : List String
  primaryRun : String → Except String Unit
  primaryRetryRun : String → Except String Unit
  searchRun : String → Option String
  ytdlpRun : String → String → Except String Unit
  idStr : PyVal → String

/-- `SpotifyPlaylistDownloader.fetch_playlist_data` (lines 108-146), with its
temp-file effect made explicit.  The second component records whether
`os.unlink(temp_file.name)` (line 123) executed: the source deletes the temp
file only after a successful `json.load`; if the tool invocation or the parse
raises, control jumps to the `except` arm (line 144) and the unlink is
skipped. -/
def fetch_playlist_data_run (w : World) (spotify_url : String) : Option PyVal × Bool :=
  match w.saveOk with
  | .error _ => (Option.none, false)
  | .ok _ =>
    match w.raw with
    | .error _ => (Option.none, false)
    | .ok data =>
      match data with
      | .dict _ => (Option.some data, true)
      | .list xs =>
        (Option.some (.dict [("name", .str (extract_collection_name spotify_url)),
                             ("songs", .list xs),
                             ("url", .str spotify_url),
                             ("type", .str (get_url_type spotify_url))]), true)
      | _ => (Option.none, true)

/-- `download_with_spotdl_primary` (lines 222-253): full-flag invocation,
retried once with the reduced flag set on failure. -/
def download_with_spotdl_primary (w : World) (track_url : String) : Bool :=
  match w.primaryRun track_url with
  | .ok _ => true
  | .error _ =>
    match w.primaryRetryRun track_url with
    | .ok _ => true
    | .error _ => false

/-- `search_youtube_track` (lines 255-271): one quiet JSON-line search for
`ytsearch3:<artist> - <title>`; the body catches every exception and returns
the first result's canonical url, or `None`. -/
def search_youtube_track (w : World) (artist title : String) : Option String :=
  w.searchRun ("ytsearch3:" ++ artist ++ " - " ++ title)

/-- `download_with_ytdlp_fallback` (lines 196-220). -/
def download_with_ytdlp_fallback (w : World) (video_url output_path : String) : Bool :=
  match w.ytdlpRun video_url output_path with
  | .ok _ => true
  | .error _ => false

/-- The existence check `list(folder.glob(f"{filename}.*"))` (line 324): a
file matches when it extends the sanitized stem by `"."` and any (possibly
empty) suffix.  Sanitized stems contain no glob metacharacters, so the glob
is exactly this prefix test. -/
def existing_match (w : World) (filename : String) : Bool :=
  w.files.any (fun f => (filename ++ ".").data.isPrefixOf f.data)

/-- The sanitized target filename stem `clean_filename(f"{artist_str} - {title}")`
built for a track (lines 315-320). -/
def track_filename (w : World) (track : PyVal) : String :=
  let d := extract_track_details (w.idStr track) track
  clean_filename (d.2.1 ++ " - " ++ pyStr d.1)

/-- What one pass of the per-track body did: whether the primary download
tool was invoked, whether the fallback search/download path was entered, and
whether the track was counted as a success. -/
structure TrackOutcome where
  usedPrimary : Bool
  usedFallback : Bool
  ok : Bool
deriving DecidableEq

/-- One iteration of the per-track loop of `download_collection`
(lines 313-349): extract the track info, build the sanitized stem, skip
(counting a success) when a matching file exists, otherwise try the primary
tool when a source url is present, then the video-search fallback. -/
def track_step (w : World) (track : PyVal) : TrackOutcome :=
  let d := extract_track_details (w.idStr track) track
  let filename := clean_filename (d.2.1 ++ " - " ++ pyStr d.1)
  if existing_match w filename then ⟨false, false, true⟩
  else
    let hasUrl := pyTruthy d.2.2
    let primary := hasUrl && download_with_spotdl_primary w (pyStr d.2.2)
    if primary then ⟨hasUrl, false, true⟩
    else
      match search_youtube_track w d.2.1 (pyStr d.1) with
      | Option.some video_url =>
        ⟨hasUrl, true, download_with_ytdlp_fallback w video_url (filename ++ ".%(ext)s")⟩
      | Option.none => ⟨hasUrl, true, false⟩

/-- The per-track loop of `download_collection` (lines 312-354), abstracted
over the per-track body: a body returning `ok true` increments
`success_count`, `ok false` increments `failed_count`, and a raised exception
(`.error`) is caught by the `except` arm (lines 351-354), increments
`failed_count`, and processing continues with the remaining tracks. -/
def process_tracks (step : PyVal → Except String TrackOutcome) : List PyVal → Nat × Nat
  | [] => (0, 0)
  | t :: ts =>
    let rest := process_tracks step ts
    match step t with
    | .ok o => if o.ok then (rest.1 + 1, rest.2) else (rest.1, rest.2 + 1)
    | .error _ => (rest.1, rest.2 + 1)

/-- The per-track loop instantiated with the concrete per-track body, which
is total in this embedding. -/
def run_track_steps (w : World) (ts : List PyVal) : Nat × Nat :=
  process_tracks (fun t => .ok (track_step w t)) ts

/-- Python iteration over the `tracks` value (line 312): lists yield their
items, strings their characters, dicts their keys; `None` raises. -/
def py_iter : PyVal → Except String (List PyVal)
  | .list xs => .ok xs
  | .str s => .ok (s.data.map (fun c => PyVal.str (String.mk [c])))
  | .dict kvs => .ok (kvs.map (fun kv => PyVal.str kv.1))
  | .none => .error "TypeError"

/-- The destination-folder naming step of `download_collection` (lines 286
and 296-297): sanitize the collection name, defaulting to
`f"Unknown {url_type.title()}"` when the `name` field is absent. -/
def collection_folder_name (metadata : PyVal) (url_type : String) : String :=
  clean_filename (pyStr (get_value metadata "name" (.str ("Unknown " ++ pyTitle url_type))))

/-- `SpotifyPlaylistDownloader.download_collection` (lines 273-364), reduced
to its observable result: the returned boolean, `success_count` and
`failed_count`.  Fetch failure, falsy metadata and an empty/falsy `songs`
value each return `False` before the loop; otherwise the loop runs and the
result is `success_count > 0` (line 360). -/
def download_collection_run (w : World) (spotify_url : String) : Bool × Nat × Nat :=
  match (fetch_playlist_data_run w spotify_url).1 with
  | Option.none => (false, 0, 0)
  | Option.some metadata =>
    if !pyTruthy metadata then (false, 0, 0)
    else if !pyTruthy (get_value metadata "songs" (.list [])) then (false, 0, 0)
    else
      match py_iter (get_value metadata "songs" (.list [])) with
      | .error _ => (false, 0, 0)
      | .ok ts =>
        (decide (0 < (run_track_steps w ts).1),
         (run_track_steps w ts).1, (run_track_steps w ts).2)

/-- `.ok`-ness of an `Except`, standing for "the subprocess call returned
without raising". -/
def exceptOk {ε α : Type} : Except ε α → Bool
  | .ok _ => true
  | .error _ => false

/-- Python `isinstance(v, list)`. -/
def isListVal : PyVal → Bool
  | .list _ => true
  | _ => false

/-- Python `isinstance(v, str)`. -/
def isStrVal : PyVal → Bool
  | .str _ => true
  | _ => false

/-! ### Concrete instances used by counterexamples and witnesses -/

/-- Concrete input refuting idempotence of `clean_filename`: 199 `a`s, a
space and a `b`.  Both substitutions leave it unchanged and `strip` removes
nothing, but the 200-character truncation cuts right after the space; the
second application then strips that newly-trailing space, giving a
199-character result. -/
def truncCex : String := String.mk (List.replicate 199 'a' ++ [' ', 'b'])

/-- Metadata record whose collection name is a single space: it sanitizes to
nothing. -/
def blankNameMeta : PyVal :=
  .dict [("name", .str " "), ("songs", .list [.dict [("name", .str "S")]]),
         ("type", .str "playlist")]

/-- World in which the metadata tool succeeds but the save file fails to
parse as JSON. -/
def badParseWorld : World :=
  ⟨.ok (), .error "Expecting value: line 1 column 1", [],
   fun _ => .error "e", fun _ => .error "e", fun _ => Option.none,
   fun _ _ => .error "e", fun _ => "0"⟩

/-- World whose destination folder already holds `"A - Song.mp3"` and whose
download oracles all fail, so any download attempt would be visible. -/
def skipWorld : World :=
  ⟨.ok (), .error "unused", ["A - Song.mp3"],
   fun _ => .error "e", fun _ => .error "e", fun _ => Option.none,
   fun _ _ => .error "e", fun _ => "0"⟩

/-- A track whose sanitized stem is `"A - Song"`. -/
def skipTrack : PyVal :=
  .dict [("name", .str "Song"), ("artists", .list [.str "A"]),
         ("url", .str "spotify:track:1")]

/-- World that fetches a metadata record with an empty `songs` list. -/
def emptySongsWorld : World :=
  ⟨.ok (), .ok (.dict [("name", .str "X"), ("songs", .list [])]), [],
   fun _ => .error "e", fun _ => .error "e", fun _ => Option.none,
   fun _ _ => .error "e", fun _ => "0"⟩

/-- World that fetches a bare list of one track record. -/
def bareListWorld : World :=
  ⟨.ok (), .ok (.list [.dict [("name", .str "S")]]), [],
   fun _ => .error "e", fun _ => .error "e", fun _ => Option.none,
   fun _ _ => .error "e", fun _ => "0"⟩

/-- A per-track body that raises on every track. -/
def failStep : PyVal → Except String TrackOutcome := fun _ => .error "boom"

/-! ### Generic facts about the Python `str.split` model -/

lemma strData_append (a b : String) : (a ++ b).data = a.data ++ b.data := rfl

lemma isPrefixOf_append_self (l t : List Char) : l.isPrefixOf (l ++ t) = true :=
  List.isPrefixOf_iff_prefix.mpr (List.prefix_append l t)

lemma containsSub_true_of_prefix {sep l : List Char} (h : sep.isPrefixOf l = true) :
    containsSub sep l = true := by
  cases l with
  | nil => simpa [containsSub] using h
  | cons c cs => simp [containsSub, h]

lemma containsSub_nil_left (l : List Char) : containsSub [] l = true := by
  cases l with
  | nil => simp [containsSub, List.isPrefixOf]
  | cons c cs => simp [containsSub, List.isPrefixOf]

lemma ne_nil_of_containsSub_false {sep l : List Char} (h : containsSub sep l = false) :
    sep ≠ [] := by
  intro hsep
  rw [hsep, containsSub_nil_left] at h
  cases h

lemma containsSub_append_mid (sep a b : List Char) :
    containsSub sep (a ++ sep ++ b) = true := by
  induction a with
  | nil =>
    simpa using containsSub_true_of_prefix (isPrefixOf_append_self sep b)
  | cons c a' ih =>
    rw [show (c :: a') ++ sep ++ b = c :: (a' ++ sep ++ b) by simp]
    simp only [containsSub]
    rw [ih, Bool.or_true]

lemma containsSub_cons_false {sep : List Char} {c : Char} {cs : List Char}
    (h : containsSub sep (c :: cs) = false) :
    sep.isPrefixOf (c :: cs) = false ∧ containsSub sep cs = false := by
  simpa [containsSub, Bool.or_eq_false_iff] using h

lemma not_isPrefixOf_straddle {sep a : List Char} (b : List Char) (hov : OverlapFree sep)
    (ha : containsSub sep a = false) (hne : a ≠ []) :
    sep.isPrefixOf (a ++ (sep ++ b)) = false := by
  cases hx : sep.isPrefixOf (a ++ (sep ++ b)) with
  | false => rfl
  | true =>
    exfalso
    have hp : sep <+: a ++ (sep ++ b) := List.isPrefixOf_iff_prefix.mp hx
    have htake : sep = (a ++ (sep ++ b)).take sep.length := List.prefix_iff_eq_take.mp hp
    rcases le_or_lt sep.length a.length with hle | hlt
    · rw [List.take_append_eq_append_take, Nat.sub_eq_zero_of_le hle] at htake
      simp only [List.take_zero, List.append_nil] at htake
      have hpre : sep <+: a := htake ▸ List.take_prefix sep.length a
      have := containsSub_true_of_prefix (List.isPrefixOf_iff_prefix.mpr hpre)
      rw [this] at ha
      cases ha
    · rw [List.take_append_eq_append_take,
        List.take_of_length_le (Nat.le_of_lt hlt)] at htake
      have htk : (sep ++ b).take (sep.length - a.length) =
          sep.take (sep.length - a.length) := by
        rw [List.take_append_eq_append_take]
        have h0 : sep.length - a.length - sep.length = 0 := by omega
        rw [h0]
        simp
      rw [htk] at htake
      have hdrop : sep.drop a.length = sep.take (sep.length - a.length) := by
        conv_lhs => rw [htake]
        exact List.drop_left a _
      exact hov a.length (List.mem_range.mpr hlt) (List.length_pos.mpr hne) hdrop

lemma splitSubGo_nil (sep : List Char) (f : Nat) : splitSubGo sep f [] = [[]] := by
  cases f <;> rfl

lemma splitSubGo_fuel {sep : List Char} :
    ∀ (f₁ : Nat) (l : List Char) (f₂ : Nat), l.length ≤ f₁ → l.length ≤ f₂ →
      splitSubGo sep f₁ l = splitSubGo sep f₂ l := by
  intro f₁
  induction f₁ with
  | zero =>
    intro l f₂ h1 _
    have : l = [] := List.length_eq_zero.mp (Nat.le_zero.mp h1)
    subst this
    rw [splitSubGo_nil, splitSubGo_nil]
  | succ n ih =>
    intro l f₂ h1 h2
    cases l with
    | nil => rw [splitSubGo_nil, splitSubGo_nil]
    | cons c cs =>
      cases f₂ with
      | zero => simp at h2
      | succ m =>
        simp only [splitSubGo]
        by_cases hc : sep ≠ [] ∧ sep.isPrefixOf (c :: cs) = true
        · rw [if_pos hc, if_pos hc]
          have hlen : ((c :: cs).drop sep.length).length ≤ n := by
            have hsl : 1 ≤ sep.length :=
              List.length_pos.mpr hc.1
            simp only [List.length_drop, List.length_cons]
            simp only [List.length_cons] at h1
            omega
          have hlen2 : ((c :: cs).drop sep.length).length ≤ m := by
            have hsl : 1 ≤ sep.length :=
              List.length_pos.mpr hc.1
            simp only [List.length_drop, List.length_cons]
            simp only [List.length_cons] at h2
            omega
          rw [ih _ _ hlen hlen2]
        · rw [if_neg hc, if_neg hc]
          have hcs1 : cs.length ≤ n := by
            simp only [List.length_cons] at h1; omega
          have hcs2 : cs.length ≤ m := by
            simp only [List.length_cons] at h2; omega
          rw [ih _ _ hcs1 hcs2]

lemma splitSubGo_no_occ {sep : List Char} :
    ∀ (f : Nat) (l : List Char), l.length ≤ f → containsSub sep l = false →
      splitSubGo sep f l = [l] := by
  intro f
  induction f with
  | zero =>
    intro l h1 _
    have : l = [] := List.length_eq_zero.mp (Nat.le_zero.mp h1)
    subst this
    rw [splitSubGo_nil]
  | succ n ih =>
    intro l h1 hcon
    cases l with
    | nil => rw [splitSubGo_nil]
    | cons c cs =>
      obtain ⟨hpre, hrest⟩ := containsSub_cons_false hcon
      simp only [splitSubGo]
      rw [if_neg (by simp [hpre])]
      have hcs : cs.length ≤ n := by
        simp only [List.length_cons] at h1; omega
      rw [ih cs hcs hrest]

lemma splitSub_no_occ {sep l : List Char} (h : containsSub sep l = false) :
    splitSub sep l = [l] :=
  splitSubGo_no_occ l.length l (Nat.le_refl _) h

lemma splitSubGo_succ_cons (sep : List Char) (f : Nat) (c : Char) (cs : List Char) :
    splitSubGo sep (f + 1) (c :: cs) =
      if sep ≠ [] ∧ sep.isPrefixOf (c :: cs) = true then
        [] :: splitSubGo sep f ((c :: cs).drop sep.length)
      else
        match splitSubGo sep f cs with
        | [] => [[c]]
        | p :: ps => (c :: p) :: ps := rfl

lemma splitSub_cons_pos {sep : List Char} {c : Char} {cs : List Char} (hsep : sep ≠ [])
    (h : sep.isPrefixOf (c :: cs) = true) :
    splitSub sep (c :: cs) = [] :: splitSub sep ((c :: cs).drop sep.length) := by
  have hsl : 1 ≤ sep.length := List.length_pos.mpr hsep
  show splitSubGo sep (cs.length + 1) (c :: cs) = _
  rw [splitSubGo_succ_cons, if_pos ⟨hsep, h⟩]
  have hd : ((c :: cs).drop sep.length).length ≤ cs.length := by
    simp only [List.length_drop, List.length_cons]
    omega
  rw [splitSubGo_fuel cs.length _ _ hd (Nat.le_refl _)]
  rfl

lemma splitSub_cons_neg {sep : List Char} {c : Char} {cs : List Char}
    (h : ¬(sep ≠ [] ∧ sep.isPrefixOf (c :: cs) = true)) :
    splitSub sep (c :: cs) =
      match splitSub sep cs with
      | [] => [[c]]
      | p :: ps => (c :: p) :: ps := by
  show splitSubGo sep (cs.length + 1) (c :: cs) = _
  rw [splitSubGo_succ_cons, if_neg h]
  rfl

lemma splitSub_append_cons {sep a : List Char} (b : List Char) (hov : OverlapFree sep)
    (ha : containsSub sep a = false) :
    splitSub sep (a ++ sep ++ b) = a :: splitSub sep b := by
  have hsep : sep ≠ [] := ne_nil_of_containsSub_false ha
  induction a with
  | nil =>
    simp only [List.nil_append]
    obtain ⟨s0, stail, hs⟩ : ∃ s0 stail, sep = s0 :: stail := by
      cases sep with
      | nil => exact absurd rfl hsep
      | cons x xs => exact ⟨x, xs, rfl⟩
    have hcons : sep ++ b = s0 :: (stail ++ b) := by rw [hs]; rfl
    rw [hcons, splitSub_cons_pos hsep (by rw [← hcons]; exact isPrefixOf_append_self sep b),
      show (s0 :: (stail ++ b)).drop sep.length = b from by
        rw [← hcons]; exact List.drop_left sep b]
  | cons c a' ih =>
    obtain ⟨hpre, hrest⟩ := containsSub_cons_false ha
    have hstraddle : sep.isPrefixOf ((c :: a') ++ (sep ++ b)) = false :=
      not_isPrefixOf_straddle b hov ha (by simp)
    rw [show (c :: a') ++ sep ++ b = c :: (a' ++ sep ++ b) by simp]
    rw [splitSub_cons_neg (by
      intro hcond
      rw [show c :: (a' ++ sep ++ b) = (c :: a') ++ (sep ++ b) by simp, hstraddle] at hcond
      exact absurd hcond.2 (by simp))]
    rw [ih hrest]

lemma splitSub_append_pair {sep a : List Char} (b : List Char) (hov : OverlapFree sep)
    (ha : containsSub sep a = false) (hb : containsSub sep b = false) :
    splitSub sep (a ++ sep ++ b) = [a, b] := by
  rw [splitSub_append_cons b hov ha, splitSub_no_occ hb]

/-! ### Facts about sanitization -/

lemma safeChar_mapChar2 (c : Char) : safeChar (mapChar2 c) = true := by
  unfold mapChar2
  by_cases h : safeChar c = true
  · rw [if_pos h]; exact h
  · rw [if_neg h]; decide

lemma mapChar1_of_safe {c : Char} (h : safeChar c = true) : mapChar1 c = c := by
  unfold mapChar1
  rw [if_neg]
  intro hmem
  fin_cases hmem <;> exact absurd h (by decide)

lemma mapChar2_of_safe {c : Char} (h : safeChar c = true) : mapChar2 c = c := by
  unfold mapChar2
  rw [if_pos h]

lemma safeChar_of_space {c : Char} (h : isSpaceChar c = true) : safeChar c = true := by
  simp [safeChar, h]

lemma mapChar1_of_space {c : Char} (h : isSpaceChar c = true) : mapChar1 c = c := by
  simp only [isSpaceChar, Bool.or_eq_true, beq_iff_eq] at h
  rcases h with ((((rfl | rfl) | rfl) | rfl) | rfl) | rfl <;> decide

lemma mapChar2_of_space {c : Char} (h : isSpaceChar c = true) : mapChar2 c = c :=
  mapChar2_of_safe (safeChar_of_space h)

lemma map_id_of_forall {l : List Char} {f : Char → Char} (h : ∀ c ∈ l, f c = c) :
    l.map f = l :=
  (List.map_congr_left h).trans (List.map_id l)

lemma head?_dropWhile {p : Char → Bool} {l : List Char} {c : Char}
    (h : (l.dropWhile p).head? = some c) : p c = false := by
  induction l with
  | nil => simp [List.dropWhile] at h
  | cons a as ih =>
    by_cases hp : p a = true
    · rw [List.dropWhile_cons, if_pos hp] at h
      exact ih h
    · rw [List.dropWhile_cons, if_neg hp] at h
      simp only [List.head?_cons, Option.some.injEq] at h
      subst h
      simpa using hp

lemma dropWhile_eq_self_of_head {p : Char → Bool} {l : List Char}
    (h : ∀ c, l.head? = some c → p c = false) : l.dropWhile p = l := by
  cases l with
  | nil => rfl
  | cons a as =>
    rw [List.dropWhile_cons, if_neg]
    simp [h a rfl]

lemma stripList_eq_dropWhile_front (l : List Char) :
    ∃ w, l.dropWhile isSpaceChar = stripList l ++ w := by
  obtain ⟨w', hw⟩ :=
    List.dropWhile_suffix (l := (l.dropWhile isSpaceChar).reverse) isSpaceChar
  refine ⟨w'.reverse, ?_⟩
  unfold stripList
  calc l.dropWhile isSpaceChar
      = (l.dropWhile isSpaceChar).reverse.reverse := (List.reverse_reverse _).symm
    _ = (w' ++ (l.dropWhile isSpaceChar).reverse.dropWhile isSpaceChar).reverse := by
        rw [hw]
    _ = ((l.dropWhile isSpaceChar).reverse.dropWhile isSpaceChar).reverse ++ w'.reverse := by
        rw [List.reverse_append]

lemma head?_stripList_not_space {l : List Char} {c : Char}
    (h : (stripList l).head? = some c) : isSpaceChar c = false := by
  obtain ⟨w, hw⟩ := stripList_eq_dropWhile_front l
  have hne : stripList l ≠ [] := by
    intro h0
    rw [h0] at h
    simp at h
  have hh : (l.dropWhile isSpaceChar).head? = some c := by
    rw [hw, List.head?_append_of_ne_nil _ hne, h]
  exact head?_dropWhile hh

lemma mem_stripList {c : Char} {l : List Char} (h : c ∈ stripList l) : c ∈ l := by
  unfold stripList at h
  rw [List.mem_reverse] at h
  have h1 := (List.dropWhile_sublist _).subset h
  rw [List.mem_reverse] at h1
  exact (List.dropWhile_sublist _).subset h1

lemma stripList_eq_nil_of_all {l : List Char} (h : ∀ c ∈ l, isSpaceChar c = true) :
    stripList l = [] := by
  unfold stripList
  rw [List.dropWhile_eq_nil_iff.mpr h]
  rfl

lemma stripList_of_no_space_ends {l : List Char}
    (hfront : ∀ c, l.head? = some c → isSpaceChar c = false)
    (hback : ∀ c, l.getLast? = some c → isSpaceChar c = false) :
    stripList l = l := by
  unfold stripList
  rw [dropWhile_eq_self_of_head hfront]
  rw [dropWhile_eq_self_of_head (by
    intro c hc
    rw [List.head?_reverse] at hc
    exact hback c hc)]
  exact List.reverse_reverse l

/-- All characters of a sanitized-and-stripped name are in the kept class. -/
lemma safe_of_mem_clean {s : String} {c : Char}
    (h : c ∈ (clean_filename s).data) : safeChar c = true := by
  have h1 : c ∈ stripList ((s.data.map mapChar1).map mapChar2) :=
    List.take_subset _ _ h
  have h2 : c ∈ (s.data.map mapChar1).map mapChar2 := mem_stripList h1
  simp only [List.mem_map] at h2
  obtain ⟨a, _, rfl⟩ := h2
  exact safeChar_mapChar2 a

lemma clean_filename_of_all_space {s : String}
    (h : ∀ c ∈ s.data, isSpaceChar c = true) : clean_filename s = "" := by
  unfold clean_filename
  have h2 : ∀ c ∈ (s.data.map mapChar1).map mapChar2, isSpaceChar c = true := by
    intro c hc
    simp only [List.mem_map] at hc
    obtain ⟨a, ha, rfl⟩ := hc
    obtain ⟨b, hb, rfl⟩ := ha
    rw [mapChar1_of_space (h b hb), mapChar2_of_space (h b hb)]
    exact h b hb
  rw [stripList_eq_nil_of_all h2]
  rfl

/-! ### Claims -/

/-- Claim C3, counterexample: `clean_filename` is not idempotent: on
`truncCex` the first application returns 199 `a`s followed by a space, the
second application returns just the 199 `a`s. -/
theorem claim_C3_cex :
    clean_filename (clean_filename truncCex) ≠ clean_filename truncCex := by
  decide

/-- Claim C3 (amended): the length of `clean_filename s` is always at most
200, and `clean_filename` is idempotent on every input whose output does not
end in a whitespace character — in particular whenever no truncation
occurred.  (Truncation at 200 characters can expose a trailing space which a
second application strips; see the counterexample.) -/
theorem claim_C3 :
    (∀ s : String, (clean_filename s).length ≤ 200) ∧
    (∀ s : String,
      isSpaceChar ((clean_filename s).data.getLastD 'a') = false →
      clean_filename (clean_filename s) = clean_filename s) := by
  constructor
  · intro s
    show ((stripList ((s.data.map mapChar1).map mapChar2)).take 200).length ≤ 200
    rw [List.length_take]
    exact inf_le_left
  · intro s hlast
    have hsafe : ∀ c ∈ (clean_filename s).data, safeChar c = true :=
      fun c hc => safe_of_mem_clean hc
    have hm1 : (clean_filename s).data.map mapChar1 = (clean_filename s).data :=
      map_id_of_forall (fun c hc => mapChar1_of_safe (hsafe c hc))
    have hm2 : (clean_filename s).data.map mapChar2 = (clean_filename s).data :=
      map_id_of_forall (fun c hc => mapChar2_of_safe (hsafe c hc))
    have hfront : ∀ c, (clean_filename s).data.head? = some c →
        isSpaceChar c = false := by
      intro c hc
      have hh : (stripList ((s.data.map mapChar1).map mapChar2)).head? = some c := by
        rw [show (clean_filename s).data
            = (stripList ((s.data.map mapChar1).map mapChar2)).take 200 from rfl,
          List.head?_take] at hc
        simpa using hc
      exact head?_stripList_not_space hh
    have hback : ∀ c, (clean_filename s).data.getLast? = some c →
        isSpaceChar c = false := by
      intro c hc
      rw [List.getLastD_eq_getLast?, hc] at hlast
      simpa using hlast
    have hstrip : stripList (clean_filename s).data = (clean_filename s).data :=
      stripList_of_no_space_ends hfront hback
    have hlen : (clean_filename s).data.length ≤ 200 := by
      show ((stripList ((s.data.map mapChar1).map mapChar2)).take 200).length ≤ 200
      rw [List.length_take]
      exact inf_le_left
    show String.mk
        ((stripList (((clean_filename s).data.map mapChar1).map mapChar2)).take 200)
      = clean_filename s
    rw [hm1, hm2, hstrip, List.take_of_length_le hlen]

/-- Witness for claim C3: a concrete input whose sanitized form does not end
in whitespace, on which idempotence holds. -/
theorem claim_C3_witness :
    isSpaceChar ((clean_filename "A - Song").data.getLastD 'a') = false ∧
    clean_filename (clean_filename "A - Song") = clean_filename "A - Song" :=
  ⟨by decide, claim_C3.2 "A - Song" (by decide)⟩

/-- Claim C8, counterexample: a collection name that sanitizes to nothing
yields the EMPTY folder name, not a non-empty generic placeholder — the
destination then resolves to the downloads root itself. -/
theorem claim_C8_cex : collection_folder_name blankNameMeta "playlist" = "" := by
  decide

/-- Claim C8 (amended): when the collection name is a string that strips to
nothing (empty or all whitespace), the folder-naming step yields the empty
string, with no generic fallback; `clean_filename` returns its
`"unknown_file"` placeholder only from its unreachable exception arm. -/
theorem claim_C8 :
    ∀ (kvs : List (String × PyVal)) (url_type s : String),
      lookupKV kvs "name" = Option.some (.str s) →
      (∀ c ∈ s.data, isSpaceChar c = true) →
      collection_folder_name (.dict kvs) url_type = "" := by
  intro kvs ut s hname hsp
  show clean_filename (pyStr ((lookupKV kvs "name").getD
      (.str ("Unknown " ++ pyTitle ut)))) = ""
  rw [hname]
  show clean_filename s = ""
  exact clean_filename_of_all_space hsp

/-- Witness for claim C8 at a concrete metadata record. -/
theorem claim_C8_witness :
    lookupKV [("name", PyVal.str " ")] "name" = Option.some (PyVal.str " ") ∧
    collection_folder_name (.dict [("name", PyVal.str " ")]) "playlist" = "" :=
  ⟨rfl, claim_C8 [("name", PyVal.str " ")] "playlist" " " rfl (by decide)⟩

lemma extract_seg {marker : List Char} (hov : OverlapFree marker)
    {pre tail : List Char} (h1 : containsSub marker pre = false)
    (h2 : containsSub marker tail = false) :
    segAfterLast marker (pre ++ marker ++ tail) = tail := by
  unfold segAfterLast
  rw [splitSub_append_pair tail hov h1 h2]
  rfl

lemma seg_before_first {seg : List Char} (rest : List Char)
    (h : containsSub "?".data seg = false) :
    segBeforeFirst "?".data (seg ++ "?".data ++ rest) = seg := by
  unfold segBeforeFirst
  rw [splitSub_append_cons rest (by decide) h]
  rfl

lemma seg_before_first_no_q {seg : List Char} (h : containsSub "?".data seg = false) :
    segBeforeFirst "?".data seg = seg := by
  unfold segBeforeFirst
  rw [splitSub_no_occ h]
  rfl

/-- Claim C5: on a URL containing a single `playlist/` (resp. `album/`)
marker, `extract_collection_name` returns `"Spotify_Playlist_<id8>"`
(resp. `"Spotify_Album_<id8>"`) where `id8` is the first 8 characters of the
segment between the marker and the next `?` — or of the whole remainder when
the URL has no `?` after the marker (`split('?')[0]` then returns the whole
string); with neither marker it returns `"Spotify_"` followed by the
title-cased classifier type; and the spec's concrete example evaluates as
claimed.  (The `except` fallback `"Downloaded_Collection"` of lines 160-161
is unreachable: every operation in the body is total.) -/
theorem claim_C5 :
    (∀ pre seg rest : String,
      containsSub "playlist/".data pre.data = false →
      containsSub "playlist/".data (seg ++ "?" ++ rest).data = false →
      containsSub "?".data seg.data = false →
      extract_collection_name (pre ++ "playlist/" ++ seg ++ "?" ++ rest) =
        "Spotify_Playlist_" ++ String.mk (seg.data.take 8)) ∧
    (∀ pre seg : String,
      containsSub "playlist/".data pre.data = false →
      containsSub "playlist/".data seg.data = false →
      containsSub "?".data seg.data = false →
      extract_collection_name (pre ++ "playlist/" ++ seg) =
        "Spotify_Playlist_" ++ String.mk (seg.data.take 8)) ∧
    (∀ pre seg rest : String,
      containsSub "album/".data pre.data = false →
      containsSub "album/".data (seg ++ "?" ++ rest).data = false →
      containsSub "playlist/".data (pre ++ "album/" ++ seg ++ "?" ++ rest).data = false →
      containsSub "?".data seg.data = false →
      extract_collection_name (pre ++ "album/" ++ seg ++ "?" ++ rest) =
        "Spotify_Album_" ++ String.mk (seg.data.take 8)) ∧
    (∀ pre seg : String,
      containsSub "album/".data pre.data = false →
      containsSub "album/".data seg.data = false →
      containsSub "playlist/".data (pre ++ "album/" ++ seg).data = false →
      containsSub "?".data seg.data = false →
      extract_collection_name (pre ++ "album/" ++ seg) =
        "Spotify_Album_" ++ String.mk (seg.data.take 8)) ∧
    (∀ url : String,
      containsSub "playlist/".data url.data = false →
      containsSub "album/".data url.data = false →
      extract_collection_name url = "Spotify_" ++ pyTitle (get_url_type url)) ∧
    extract_collection_name "https://open.spotify.com/playlist/abc12345?si=xyz" =
      "Spotify_Playlist_abc12345" := by
  refine ⟨?_, ?_, ?_, ?_, ?_, by decide⟩
  · intro pre seg rest h1 h2 h3
    have hov : OverlapFree "playlist/".data := by decide
    have hurl : (pre ++ "playlist/" ++ seg ++ "?" ++ rest).data
        = pre.data ++ "playlist/".data ++ (seg ++ "?" ++ rest).data := by
      simp only [strData_append, List.append_assoc]
    have htail : (seg ++ "?" ++ rest).data = seg.data ++ "?".data ++ rest.data := by
      simp only [strData_append, List.append_assoc]
    simp only [extract_collection_name]
    rw [hurl, if_pos (containsSub_append_mid _ _ _), extract_seg hov h1 h2, htail,
      seg_before_first _ h3]
  · intro pre seg h1 h2 h3
    have hov : OverlapFree "playlist/".data := by decide
    have hurl : (pre ++ "playlist/" ++ seg).data
        = pre.data ++ "playlist/".data ++ seg.data := by
      simp only [strData_append, List.append_assoc]
    simp only [extract_collection_name]
    rw [hurl, if_pos (containsSub_append_mid _ _ _), extract_seg hov h1 h2,
      seg_before_first_no_q h3]
  · intro pre seg rest h1 h2 hnopl h3
    have hov : OverlapFree "album/".data := by decide
    have hurl : (pre ++ "album/" ++ seg ++ "?" ++ rest).data
        = pre.data ++ "album/".data ++ (seg ++ "?" ++ rest).data := by
      simp only [strData_append, List.append_assoc]
    have htail : (seg ++ "?" ++ rest).data = seg.data ++ "?".data ++ rest.data := by
      simp only [strData_append, List.append_assoc]
    simp only [extract_collection_name]
    rw [if_neg (by intro hcond; rw [hnopl] at hcond; exact Bool.noConfusion hcond),
      hurl, if_pos (containsSub_append_mid _ _ _),
      extract_seg hov h1 h2, htail, seg_before_first _ h3]
  · intro pre seg h1 h2 hnopl h3
    have hov : OverlapFree "album/".data := by decide
    have hurl : (pre ++ "album/" ++ seg).data
        = pre.data ++ "album/".data ++ seg.data := by
      simp only [strData_append, List.append_assoc]
    simp only [extract_collection_name]
    rw [if_neg (by intro hcond; rw [hnopl] at hcond; exact Bool.noConfusion hcond),
      hurl, if_pos (containsSub_append_mid _ _ _),
      extract_seg hov h1 h2, seg_before_first_no_q h3]
  · intro url h1 h2
    simp only [extract_collection_name]
    rw [if_neg (by simp [h1]), if_neg (by simp [h2])]

/-- Witness for claim C5: the marker case with a query string, the marker
case without one, and the no-marker case, at concrete URLs. -/
theorem claim_C5_witness :
    extract_collection_name
        ("https://open.spotify.com/" ++ "playlist/" ++ "abc12345" ++ "?" ++ "si=xyz") =
      "Spotify_Playlist_" ++ String.mk (("abc12345" : String).data.take 8) ∧
    extract_collection_name ("https://open.spotify.com/" ++ "playlist/" ++ "abcdefghij") =
      "Spotify_Playlist_" ++ String.mk (("abcdefghij" : String).data.take 8) ∧
    extract_collection_name ("https://open.spotify.com/" ++ "album/" ++ "zz99") =
      "Spotify_Album_" ++ String.mk (("zz99" : String).data.take 8) ∧
    extract_collection_name "https://x.example/item" =
      "Spotify_" ++ pyTitle (get_url_type "https://x.example/item") :=
  ⟨claim_C5.1 "https://open.spotify.com/" "abc12345" "si=xyz"
      (by decide) (by decide) (by decide),
   claim_C5.2.1 "https://open.spotify.com/" "abcdefghij"
      (by decide) (by decide) (by decide),
   claim_C5.2.2.2.1 "https://open.spotify.com/" "zz99"
      (by decide) (by decide) (by decide) (by decide),
   claim_C5.2.2.2.2.1 "https://x.example/item" (by decide) (by decide)⟩

lemma process_tracks_cons_ok {step : PyVal → Except String TrackOutcome} {t : PyVal}
    {ts : List PyVal} {o : TrackOutcome} (h : step t = .ok o) :
    process_tracks step (t :: ts) =
      if o.ok then ((process_tracks step ts).1 + 1, (process_tracks step ts).2)
      else ((process_tracks step ts).1, (process_tracks step ts).2 + 1) := by
  simp only [process_tracks, h]

lemma process_tracks_cons_error {step : PyVal → Except String TrackOutcome} {t : PyVal}
    {ts : List PyVal} {e : String} (h : step t = .error e) :
    process_tracks step (t :: ts) =
      ((process_tracks step ts).1, (process_tracks step ts).2 + 1) := by
  simp only [process_tracks, h]

/-- Claim C2, counterexample: when parsing the temp file raises, the temp
file is NOT deleted — `os.unlink` (line 123) sits after `json.load` inside
the `try`, so the exception jumps straight to the handler. -/
theorem claim_C2_cex :
    (fetch_playlist_data_run badParseWorld "https://open.spotify.com/playlist/x").2
      = false := rfl

/-- Claim C2 (amended): the temp file is deleted exactly when the metadata
tool invocation and the JSON parse both succeed (the parsed root's shape is
irrelevant: all three shape branches run after the unlink); when the tool or
the parse raises, the handler returns `None` without deleting the file. -/
theorem claim_C2 :
    ∀ (w : World) (url : String),
      (fetch_playlist_data_run w url).2 = (exceptOk w.saveOk && exceptOk w.raw) := by
  intro w url
  cases hs : w.saveOk with
  | error e => simp [fetch_playlist_data_run, exceptOk, hs]
  | ok u =>
    cases hr : w.raw with
    | error e => simp [fetch_playlist_data_run, exceptOk, hs, hr]
    | ok d => cases d <;> simp [fetch_playlist_data_run, exceptOk, hs, hr]

/-- Claim C6: when the parsed metadata root is a bare list of track records,
`fetch_playlist_data` synthesizes a collection record whose `songs` field is
exactly that list (verbatim, in order), whose `name` is derived from the URL
by `extract_collection_name`, and whose `type` comes from the URL
classifier. -/
theorem claim_C6 :
    ∀ (w : World) (url : String) (xs : List PyVal),
      w.saveOk = .ok () → w.raw = .ok (.list xs) →
      ∃ md, (fetch_playlist_data_run w url).1 = Option.some md ∧
        get_value md "songs" (.list []) = .list xs ∧
        get_value md "name" (.str "") = .str (extract_collection_name url) ∧
        get_value md "type" (.str "") = .str (get_url_type url) := by
  intro w url xs hs hr
  refine ⟨.dict [("name", .str (extract_collection_name url)),
                 ("songs", .list xs),
                 ("url", .str url),
                 ("type", .str (get_url_type url))], ?_, rfl, rfl, rfl⟩
  simp [fetch_playlist_data_run, hs, hr]

/-- Witness for claim C6 at a concrete world and URL. -/
theorem claim_C6_witness :
    ∃ md, (fetch_playlist_data_run bareListWorld
        "https://open.spotify.com/playlist/abc12345?si=xyz").1 = Option.some md ∧
      get_value md "songs" (.list []) = .list [.dict [("name", .str "S")]] ∧
      get_value md "name" (.str "") =
        .str (extract_collection_name "https://open.spotify.com/playlist/abc12345?si=xyz") ∧
      get_value md "type" (.str "") =
        .str (get_url_type "https://open.spotify.com/playlist/abc12345?si=xyz") :=
  claim_C6 bareListWorld "https://open.spotify.com/playlist/abc12345?si=xyz"
    [.dict [("name", .str "S")]] rfl rfl

/-- Claim C1: a track whose sanitized stem already matches a file in the
destination folder is skipped — neither the primary download tool nor the
fallback search/download path is invoked, `success_count` is incremented,
and the loop proceeds to the remaining tracks. -/
theorem claim_C1 :
    ∀ (w : World) (t : PyVal) (ts : List PyVal),
      existing_match w (track_filename w t) = true →
      track_step w t = ⟨false, false, true⟩ ∧
      run_track_steps w (t :: ts) =
        ((run_track_steps w ts).1 + 1, (run_track_steps w ts).2) := by
  intro w t ts h
  simp only [track_filename] at h
  have hstep : track_step w t = ⟨false, false, true⟩ := by
    simp only [track_step]
    rw [if_pos h]
  refine ⟨hstep, ?_⟩
  unfold run_track_steps
  rw [process_tracks_cons_ok
    (show (fun x => Except.ok (track_step w x)) t
        = Except.ok (⟨false, false, true⟩ : TrackOutcome) from by
      show Except.ok (track_step w t) = _
      rw [hstep])]
  rfl

/-- Witness for claim C1: a concrete world whose folder already contains
`"A - Song.mp3"` and a track with stem `"A - Song"`. -/
theorem claim_C1_witness :
    existing_match skipWorld (track_filename skipWorld skipTrack) = true ∧
    track_step skipWorld skipTrack = ⟨false, false, true⟩ ∧
    run_track_steps skipWorld [skipTrack] =
      ((run_track_steps skipWorld []).1 + 1, (run_track_steps skipWorld []).2) := by
  have h : existing_match skipWorld (track_filename skipWorld skipTrack) = true := by
    decide
  exact ⟨h, (claim_C1 skipWorld skipTrack [] h).1, (claim_C1 skipWorld skipTrack [] h).2⟩

/-- Claim C4: `download_collection` reports overall success exactly when
`success_count > 0`; and when the fetched metadata's `songs` value is the
empty list the run returns failure with `success_count = 0` (and, this
embedding being total, without raising). -/
theorem claim_C4 :
    (∀ (w : World) (url : String),
      (download_collection_run w url).1 = true ↔
        0 < (download_collection_run w url).2.1) ∧
    (∀ (w : World) (url : String) (md : PyVal),
      (fetch_playlist_data_run w url).1 = Option.some md →
      get_value md "songs" (.list []) = .list [] →
      download_collection_run w url = (false, 0, 0)) := by
  constructor
  · intro w url
    unfold download_collection_run
    cases (fetch_playlist_data_run w url).1 with
    | none => simp
    | some md =>
      dsimp only
      by_cases hm : pyTruthy md
      · rw [if_neg (by simp [hm])]
        by_cases ht : pyTruthy (get_value md "songs" (.list []))
        · rw [if_neg (by simp [ht])]
          cases py_iter (get_value md "songs" (.list [])) with
          | error e => simp
          | ok ts => simp
        · rw [if_pos (by simp [ht])]
          simp
      · rw [if_pos (by simp [hm])]
        simp
  · intro w url md hf hsongs
    simp only [download_collection_run, hf]
    by_cases hm : pyTruthy md
    · rw [if_neg (by simp [hm]), hsongs, if_pos (by decide)]
    · rw [if_pos (by simp [hm])]

/-- Witness for claim C4 at a concrete world whose metadata has an empty
track list. -/
theorem claim_C4_witness :
    ((download_collection_run emptySongsWorld "u").1 = true ↔
      0 < (download_collection_run emptySongsWorld "u").2.1) ∧
    download_collection_run emptySongsWorld "u" = (false, 0, 0) :=
  ⟨claim_C4.1 emptySongsWorld "u",
   claim_C4.2 emptySongsWorld "u" (.dict [("name", .str "X"), ("songs", .list [])])
     rfl rfl⟩

/-- Claim C7: a per-track body that raises is caught by the loop's `except`
arm: the track is counted as Failed and the remaining tracks' tallies are
unchanged — a per-track failure never aborts the batch. -/
theorem claim_C7 :
    ∀ (step : PyVal → Except String TrackOutcome) (t : PyVal) (ts : List PyVal)
      (e : String),
      step t = .error e →
      process_tracks step (t :: ts) =
        ((process_tracks step ts).1, (process_tracks step ts).2 + 1) := by
  intro step t ts e h
  exact process_tracks_cons_error h

/-- Witness for claim C7: a body raising on every track, over a two-track
batch. -/
theorem claim_C7_witness :
    failStep PyVal.none = .error "boom" ∧
    process_tracks failStep [PyVal.none, PyVal.none] =
      ((process_tracks failStep [PyVal.none]).1,
       (process_tracks failStep [PyVal.none]).2 + 1) :=
  ⟨rfl, claim_C7 failStep PyVal.none [PyVal.none] "boom" rfl⟩

/-- Claim C9, counterexample: an artist value of `None` is NOT stringified
directly — `format_list_as_string` maps falsy non-strings to `"Unknown"`,
while `str(None)` is `"None"`. -/
theorem claim_C9_cex :
    (extract_track_details "0"
        (.dict [("name", .str "Song"), ("artists", PyVal.none),
                ("url", .str "u")])).2.1 ≠ pyStr PyVal.none := by
  decide

/-- Claim C9 (amended): the spec's concrete example evaluates as claimed; a
present artist list is joined with `", "` skipping falsy entries; and a
non-list artist value is stringified directly when it is a string or truthy,
while a falsy non-string artist value yields `"Unknown"`. -/
theorem claim_C9 :
    (∀ tid : String,
      extract_track_details tid
          (.dict [("name", .str "Song"), ("artists", .list [.str "A", .str "B"]),
                  ("url", .str "spotify:track:1")]) =
        (.str "Song", "A, B", .str "spotify:track:1")) ∧
    (∀ (tid : String) (kvs : List (String × PyVal)) (xs : List PyVal),
      lookupKV kvs "artists" = Option.some (.list xs) →
      (extract_track_details tid (.dict kvs)).2.1 =
        sepJoin ", " ((xs.filter pyTruthy).map pyStr)) ∧
    (∀ (tid : String) (kvs : List (String × PyVal)) (v : PyVal),
      lookupKV kvs "artists" = Option.some v →
      isListVal v = false →
      (extract_track_details tid (.dict kvs)).2.1 =
        (if isStrVal v || pyTruthy v then pyStr v else "Unknown")) := by
  refine ⟨fun tid => rfl, ?_, ?_⟩
  · intro tid kvs xs h
    simp only [extract_track_details, get_value, h, Option.getD_some]
    rfl
  · intro tid kvs v h hv
    simp only [extract_track_details, get_value, h, Option.getD_some]
    cases v with
    | str s => simp [format_list_as_string, isStrVal, pyStr]
    | none => simp [format_list_as_string, isStrVal, pyTruthy]
    | list xs => simp [isListVal] at hv
    | dict kvs' =>
      by_cases htr : pyTruthy (PyVal.dict kvs')
      · simp [format_list_as_string, isStrVal, htr]
      · simp [format_list_as_string, isStrVal, htr]

/-- Witness for claim C9 at concrete records: the spec's example, a list
with a falsy entry, and a plain-string artist value. -/
theorem claim_C9_witness :
    extract_track_details "0"
        (.dict [("name", .str "Song"), ("artists", .list [.str "A", .str "B"]),
                ("url", .str "spotify:track:1")]) =
      (.str "Song", "A, B", .str "spotify:track:1") ∧
    (extract_track_details "0"
        (.dict [("artists", .list [.str "A", .str "", .str "B"])])).2.1 =
      sepJoin ", " (([PyVal.str "A", .str "", .str "B"].filter pyTruthy).map pyStr) ∧
    (extract_track_details "0" (.dict [("artists", .str "X")])).2.1 =
      (if isStrVal (.str "X") || pyTruthy (.str "X") then pyStr (.str "X")
       else "Unknown") :=
  ⟨claim_C9.1 "0",
   claim_C9.2.1 "0" [("artists", .list [.str "A", .str "", .str "B"])]
     [.str "A", .str "", .str "B"] rfl,
   claim_C9.2.2 "0" [("artists", .str "X")] (.str "X") rfl rfl⟩

/-- Claim C10: a present-but-empty artist list yields the empty string as
the artist display (not `"Unknown"`, not the default), so the unsanitized
target stem is `" - <title>"`. -/
theorem claim_C10 :
    ∀ (tid : String) (kvs : List (String × PyVal)),
      lookupKV kvs "artists" = Option.some (.list []) →
      (extract_track_details tid (.dict kvs)).2.1 = "" ∧
      (extract_track_details tid (.dict kvs)).2.1 ++ " - "
          ++ pyStr (extract_track_details tid (.dict kvs)).1 =
        " - " ++ pyStr (extract_track_details tid (.dict kvs)).1 := by
  intro tid kvs h
  have hd : (extract_track_details tid (.dict kvs)).2.1 = "" := by
    simp only [extract_track_details, get_value, h, Option.getD_some]
    rfl
  exact ⟨hd, by rw [hd]; rfl⟩

/-- Witness for claim C10 at a concrete record. -/
theorem claim_C10_witness :
    lookupKV [("name", PyVal.str "T"), ("artists", PyVal.list [])] "artists" =
      Option.some (PyVal.list []) ∧
    (extract_track_details "0"
        (.dict [("name", PyVal.str "T"), ("artists", PyVal.list [])])).2.1 = "" :=
  ⟨rfl, (claim_C10 "0" [("name", PyVal.str "T"), ("artists", PyVal.list [])] rfl).1⟩

end SpotifyDL
